import Mathlib

/-!
Verification model of `airavata_django_portal_sdk/user_storage.py`.

Paths are represented structurally: an absolute filesystem path is the list of
its segments (the text between two separators), and a Python path string is a
flag saying whether it starts with the separator plus its raw segment list
(raw segments may still be empty, "." or "..").  The storage backend
(Django FileSystemStorage: safe_join containment, get_valid_name sanitising,
get_available_name collision avoidance) is not part of the repository source;
it is modelled from the spec (sections 4.1 and 4.2) at this segment level.
The filesystem itself is an association list from absolute paths to entries.
-/

namespace UserStorage

/-- An absolute filesystem path, as the list of its segments from the filesystem root. -/
abbrev AbsPath := List String

/-- A Python path string, represented structurally: whether it starts with the
separator, and its raw segments (which may still contain "", "." and ".."). -/
structure PyPath where
  absolute : Bool
  segs : List String
deriving DecidableEq, Repr

/-- Normalisation pass of os.path.abspath on the segments of an absolute path:
drops empty and "." segments and resolves ".." against the accumulated prefix
(a ".." at the filesystem root stays at the root, as in os.path.normpath). -/
def normAux (acc : List String) : List String → List String
  | [] => acc
  | s :: rest =>
    if s = "" ∨ s = "." then normAux acc rest
    else if s = ".." then normAux acc.dropLast rest
    else normAux (acc ++ [s]) rest

/-- Normalise the segments of an absolute path. -/
def normSegs (l : List String) : List String := normAux [] l

/-- os.path.join of a root and a path: an absolute path discards the root. -/
def joinSegs (base : AbsPath) (p : PyPath) : List String :=
  if p.absolute then p.segs else base ++ p.segs

/-- Modelled from the spec (section 4.1, PathResolver): the containment check the
storage backend performs when resolving a path against a storage root
(os.path.join of root and path, made absolute and normalised, then required to
have the root as a prefix); `none` models the raised invalid-path error
(SuspiciousFileOperation). -/
def safeJoin (base : AbsPath) (p : PyPath) : Option AbsPath :=
  if base.isPrefixOf (normSegs (joinSegs base p)) then some (normSegs (joinSegs base p))
  else none

/-- A filesystem entry: a regular file with its byte content, or a directory. -/
inductive Entry
  | file (content : List Nat)
  | dir
deriving DecidableEq, Repr

/-- The filesystem: an association list from absolute paths to entries
(the first binding for a path wins). -/
abbrev FS := List (AbsPath × Entry)

/-- Entry stored at a path, if any. -/
def FS.lookup (fs : FS) (p : AbsPath) : Option Entry := List.lookup p fs

/-- os.path.exists: some entry is present at the path. -/
def FS.existsAt (fs : FS) (p : AbsPath) : Bool := (fs.lookup p).isSome

/-- os.path.isfile: the entry at the path is a regular file. -/
def FS.isFile (fs : FS) (p : AbsPath) : Bool :=
  match fs.lookup p with
  | some (.file _) => true
  | _ => false

/-- os.path.isdir: the entry at the path is a directory. -/
def FS.isDir (fs : FS) (p : AbsPath) : Bool :=
  match fs.lookup p with
  | some .dir => true
  | _ => false

/-- Write an entry at a path (overwriting any previous binding). -/
def FS.insert (fs : FS) (p : AbsPath) (e : Entry) : FS := (p, e) :: fs

/-- shutil.rmtree: remove the directory at the path and everything beneath it. -/
def FS.removeTree (fs : FS) (p : AbsPath) : FS :=
  fs.filter (fun q => !(p.isPrefixOf q.1))

/-- A path segment that survives normalisation unchanged. -/
def goodSeg (s : String) : Bool := decide (s ≠ "" ∧ s ≠ "." ∧ s ≠ "..")

/-- All segments of the path survive normalisation unchanged. -/
def goodPath (p : List String) : Bool := p.all goodSeg

/-- Common prefix length of two segment lists (os.path.commonprefix on parts). -/
def commonLen : List String → List String → Nat
  | a :: as, b :: bs => if a = b then commonLen as bs + 1 else 0
  | _, _ => 0

/-- os.path.relpath at the segment level: the path of `target` relative to
`start`, stepping up with ".." past the common prefix. -/
def relpathSegs (target start : List String) : List String :=
  let c := commonLen target start
  List.replicate (start.length - c) ".." ++ target.drop c

/-- The `tmp` staging directory name (TMP_INPUT_FILE_UPLOAD_DIR). -/
def TMP_INPUT_FILE_UPLOAD_DIR : String := "tmp"

/-- Model of _Datastore: the base directory under which every user storage root lives. -/
structure Datastore where
  directory : AbsPath
deriving DecidableEq, Repr

/-- Location of the per-user FileSystemStorage:
os.path.join(self.directory, username). -/
def Datastore.userRoot (ds : Datastore) (username : String) : AbsPath :=
  ds.directory ++ [username]

/-- Model of _Datastore.path: resolve a path inside the storage of the given user
(FileSystemStorage.path, which performs the safe join of the storage location
and the name); `none` models the SuspiciousFileOperation exception. -/
def Datastore.path (ds : Datastore) (username : String) (p : PyPath) :
    Option AbsPath :=
  safeJoin (ds.userRoot username) p

/-- Model of _Datastore.exists: storage.exists(path) and os.path.isfile(resolved path);
a SuspiciousFileOperation is caught, a warning naming the user is logged, and
False is returned.  Result: the answer and the log entries emitted. -/
def Datastore.existsF (ds : Datastore) (fs : FS) (username : String)
    (p : PyPath) : Bool × List String :=
  match ds.path username p with
  | some a => (fs.existsAt a && fs.isFile a, [])
  | none => (false, ["Invalid path for user " ++ username])

/-- Model of _Datastore.dir_exists: storage.exists(path) and os.path.isdir(resolved
path), with the same SuspiciousFileOperation handling as exists. -/
def Datastore.dirExistsF (ds : Datastore) (fs : FS) (username : String)
    (p : PyPath) : Bool × List String :=
  match ds.path username p with
  | some a => (fs.existsAt a && fs.isDir a, [])
  | none => (false, ["Invalid path for user " ++ username])

/-- Model of _Datastore.rel_path: os.path.relpath of the resolved path against the
resolved empty path (the storage root); `none` models the raised
SuspiciousFileOperation. -/
def Datastore.relPath (ds : Datastore) (username : String) (p : PyPath) :
    Option (List String) :=
  match ds.path username p, ds.path username ⟨false, []⟩ with
  | some full, some rootp => some (relpathSegs full rootp)
  | _, _ => none

/-- Model of _Datastore.open: if the file exists for the user, its content; otherwise
the ObjectDoesNotExist error. -/
def Datastore.openF (ds : Datastore) (fs : FS) (username : String)
    (p : PyPath) : Except String (List Nat) :=
  if (ds.existsF fs username p).1 then
    match ds.path username p with
    | some a =>
      match fs.lookup a with
      | some (.file c) => .ok c
      | _ => .error "IsADirectoryError"
    | none => .error "SuspiciousFileOperation"
  else .error "ObjectDoesNotExist: File path does not exist"

/-- Model of _Datastore.delete_dir: if the directory exists for the user, remove it and
everything beneath it (shutil.rmtree); otherwise the ObjectDoesNotExist error. -/
def Datastore.deleteDir (ds : Datastore) (fs : FS) (username : String)
    (p : PyPath) : Except String FS :=
  if (ds.dirExistsF fs username p).1 then
    match ds.path username p with
    | some a => .ok (fs.removeTree a)
    | none => .error "SuspiciousFileOperation"
  else .error "ObjectDoesNotExist: File path does not exist"

/-- A character kept by the storage name sanitiser (word characters, dash, dot;
the ASCII fragment of the backend rule). -/
def validNameChar (c : Char) : Bool := c.isAlphanum || c = '_' || c = '-' || c = '.'

/-- Leading and trailing whitespace removed, at the character level. -/
def trimChars (cs : List Char) : List Char :=
  (((cs.dropWhile (fun c => c.isWhitespace)).reverse.dropWhile
    (fun c => c.isWhitespace)).reverse)

/-- Modelled from the spec (section 4.2, NameAllocator sanitise): the storage
get_valid_name — strip surrounding whitespace, turn spaces into underscores,
drop every character that is not a word character, dash or dot. -/
def get_valid_name (s : String) : String :=
  String.mk (((trimChars s.toList).map
    (fun c => if c = ' ' then '_' else c)).filter validNameChar)

/-- os.path.basename, at the character level: the text after the last
separator (empty when the string ends in a separator). -/
def basenameAux (acc : List Char) : List Char → List Char
  | [] => acc
  | c :: rest =>
    if c = '/' then basenameAux [] rest else basenameAux (acc ++ [c]) rest

/-- os.path.basename of a Python path string. -/
def basename (s : String) : String := String.mk (basenameAux [] s.toList)

/-- os.path.splitext restricted to a single separator-free segment: split at
the last dot, provided some earlier character of the segment is not a dot. -/
def splitSegExt (s : String) : String × String :=
  let cs := s.toList
  let idxs := (List.range cs.length).filter (fun i => decide (cs.getD i ' ' = '.'))
  match idxs.getLast? with
  | none => (s, "")
  | some i =>
    if (cs.take i).any (fun c => decide (c ≠ '.')) then
      (String.mk (cs.take i), String.mk (cs.drop i))
    else (s, "")

/-- Modelled from the spec (section 4.2, NameAllocator): the disambiguated
sibling name — a numeric suffix inserted before the extension (standing in
for the backend random suffix; the spec allows either). -/
def altSeg (s : String) (n : Nat) : String :=
  let (root, ext) := splitSegExt s
  root ++ "_" ++ toString n ++ ext

/-- the n-th candidate name tried by the allocator: the desired name first,
then its numerically disambiguated variants. -/
def candSeg (valid : String) : Nat → String
  | 0 => valid
  | n + 1 => altSeg valid (n + 1)

/-- Modelled from the spec (section 4.2, NameAllocator): storage
get_available_name on a directory and a desired final segment — keep proposing
candidates until one names no existing entry; every existence check resolves
the candidate through the safe join, whose containment violation propagates.
Fuel bounds the search; the result is the resolved absolute path of the free
candidate. -/
def getAvailableAux (root : AbsPath) (fs : FS) (dir : PyPath) (valid : String) :
    Nat → Nat → Except String AbsPath
  | 0, _ => .error "allocator fuel exhausted"
  | fuel + 1, n =>
    match safeJoin root ⟨dir.absolute, dir.segs ++ [candSeg valid n]⟩ with
    | none => .error "SuspiciousFileOperation"
    | some a =>
      if fs.existsAt a then getAvailableAux root fs dir valid fuel (n + 1)
      else .ok a

/-- An uploaded file object: its (possibly path-like) name and its bytes. -/
structure PyFile where
  name : String
  content : List Nat
deriving DecidableEq, Repr

/-- Model of _Datastore.save: derive the file name (the basename of the name of the
file object when no explicit name is given), sanitise it, join it with the
destination directory, let the storage allocate an available collision-free
path there, write the content, and return the resolved absolute path. -/
def Datastore.save (ds : Datastore) (fs : FS) (fuel : Nat) (username : String)
    (path : PyPath) (file : PyFile) (name : Option String) :
    Except String (FS × AbsPath) :=
  let file_name := match name with | some n => n | none => basename file.name
  let valid := get_valid_name file_name
  match getAvailableAux (ds.userRoot username) fs path valid fuel 0 with
  | .error e => .error e
  | .ok a => .ok (fs.insert a (.file file.content), a)

/-- FileSystemStorage.exists on a raw storage-relative or absolute name; the
safe join can raise the invalid-path error, which propagates here (unlike in
_Datastore.exists, where it is caught). -/
def storageExistsE (root : AbsPath) (fs : FS) (p : PyPath) :
    Except String Bool :=
  match safeJoin root p with
  | none => .error "SuspiciousFileOperation"
  | some a => .ok (fs.existsAt a)

/-- os.makedirs: create the directory and all its missing ancestors (the
permission mode that _makedirs sets and re-asserts is not modelled). -/
def FS.mkdirAll (fs : FS) (target : AbsPath) : FS :=
  (List.range target.length).foldl
    (fun f i =>
      let p := target.take (i + 1)
      if f.existsAt p then f else f.insert p .dir)
    fs

/-- Model of _Datastore._makedirs: resolve the directory path inside the user storage,
then create it with all missing ancestors. -/
def Datastore.makedirs (ds : Datastore) (fs : FS) (username : String)
    (dirPath : PyPath) : Except String FS :=
  match ds.path username dirPath with
  | none => .error "SuspiciousFileOperation"
  | some full => .ok (fs.mkdirAll full)

/-- Model of _Datastore.get_experiment_dir: with no explicit path, sanitise the project
name, create the project directory when missing, join with the sanitised
experiment name, allocate an available directory name there and create it;
with an explicit path, resolve it and create it only when missing. -/
def Datastore.getExperimentDir (ds : Datastore) (fs : FS) (fuel : Nat)
    (username : String) (projectName experimentName : Option String)
    (path : Option PyPath) : Except String (FS × AbsPath) :=
  let root := ds.userRoot username
  match path with
  | none =>
    match projectName, experimentName with
    | some project, some experiment =>
      let projDir := get_valid_name project
      match storageExistsE root fs ⟨false, [projDir]⟩ with
      | .error e => .error e
      | .ok pex =>
        match (if pex then .ok fs else ds.makedirs fs username ⟨false, [projDir]⟩ :
            Except String FS) with
        | .error e => .error e
        | .ok fs1 =>
          match getAvailableAux root fs1 ⟨false, [projDir]⟩
              (get_valid_name experiment) fuel 0 with
          | .error e => .error e
          | .ok expDir =>
            match storageExistsE root fs1 ⟨true, expDir⟩ with
            | .error e => .error e
            | .ok eex =>
              match (if eex then .ok fs1 else ds.makedirs fs1 username ⟨true, expDir⟩ :
                  Except String FS) with
              | .error e => .error e
              | .ok fs2 => .ok (fs2, expDir)
    | _, _ => .error "TypeError"
  | some p =>
    match ds.path username p with
    | none => .error "SuspiciousFileOperation"
    | some expDir =>
      match storageExistsE root fs ⟨true, expDir⟩ with
      | .error e => .error e
      | .ok eex =>
        match (if eex then .ok fs else ds.makedirs fs username ⟨true, expDir⟩ :
            Except String FS) with
        | .error e => .error e
        | .ok fs2 => .ok (fs2, expDir)

/-- ReplicaLocationCategory of the thrift data model. -/
inductive ReplicaLocationCategory
  | GATEWAY_DATA_STORE
  | COMPUTE_RESOURCE
  | LONG_TERM_STORAGE_RESOURCE
  | OTHER
deriving DecidableEq, Repr

/-- ReplicaPersistentType of the thrift data model. -/
inductive ReplicaPersistentType
  | TRANSIENT
  | PERSISTENT
deriving DecidableEq, Repr

/-- The file URI written into a replica location, "file://host:absolute-path",
kept structurally; urlparse(...).path reads back the path component. -/
structure FileUri where
  host : String
  path : AbsPath
deriving DecidableEq, Repr

/-- DataReplicaLocationModel, restricted to the fields this code sets. -/
structure ReplicaLocation where
  storageResourceId : String
  replicaName : String
  replicaLocationCategory : ReplicaLocationCategory
  replicaPersistentType : ReplicaPersistentType
  filePath : FileUri
deriving DecidableEq, Repr

/-- The Django settings this module reads. -/
structure Settings where
  gatewayId : String
  dataStoreResourceId : String
  dataStoreHostname : String
deriving DecidableEq, Repr

/-- Mutable Python objects reachable from a data product, with list and dict
values held behind indices so that aliasing between records is observable:
a record field stores the index of its metadata dict or replica list. -/
structure Heap where
  dicts : List (List (String × String))
  replicaLists : List (List ReplicaLocation)
deriving DecidableEq, Repr

/-- Value of a metadata dict reference. -/
def Heap.readDict (h : Heap) (r : Nat) : List (String × String) :=
  h.dicts.getD r []

/-- In-place update of one key of a metadata dict (a Python dict item
assignment through a reference). -/
def Heap.writeDictKey (h : Heap) (r : Nat) (k v : String) : Heap :=
  { h with
    dicts := h.dicts.set r
      ((k, v) :: (h.dicts.getD r []).filter (fun kv => decide (kv.1 ≠ k))) }

/-- Value of a replica list reference. -/
def Heap.readReplicas (h : Heap) (r : Nat) : List ReplicaLocation :=
  h.replicaLists.getD r []

/-- DataProductModel, restricted to the fields this code touches; the
metadata dict and the replica list are references into the heap. -/
structure DataProductObj where
  productUri : Option String
  gatewayId : String
  ownerName : String
  productName : String
  productMetadata : Option Nat
  replicaLocations : Nat
deriving DecidableEq, Repr

/-- copy.copy: a shallow copy — every field, the dict and list references
included, is carried over unchanged. -/
def pyCopy (dp : DataProductObj) : DataProductObj := dp

/-- Model of _create_replica_location for a full path and display name. -/
def create_replica_location (st : Settings) (fullPath : AbsPath)
    (fileName : String) : ReplicaLocation :=
  { storageResourceId := st.dataStoreResourceId
  , replicaName := fileName ++ " gateway data store copy"
  , replicaLocationCategory := .GATEWAY_DATA_STORE
  , replicaPersistentType := .TRANSIENT
  , filePath := ⟨st.dataStoreHostname, fullPath⟩ }

/-- Model of _copy_data_product: shallow-copy the record, clear its external
identifier, rewrite its owner to the requesting user, and point it at a
freshly allocated single-element replica list for the new full path. -/
def copy_data_product (st : Settings) (h : Heap) (requestUser : String)
    (dp : DataProductObj) (fullPath : AbsPath) : Heap × DataProductObj :=
  let c := pyCopy dp
  let c := { c with productUri := none, ownerName := requestUser }
  let rep := create_replica_location st fullPath c.productName
  let ref := h.replicaLists.length
  let h2 := { h with replicaLists := h.replicaLists ++ [[rep]] }
  (h2, { c with replicaLocations := ref })

/-- External catalog and path-index state: the records submitted to the
catalog, the (user, full path, record id) associations, and a counter from
which the catalog mints fresh identifiers. -/
structure Env where
  catalogSubmissions : List DataProductObj
  userFiles : List (String × AbsPath × String)
  nextUri : Nat
deriving DecidableEq, Repr

/-- Model of _register_data_product: submit the record to the catalog (which returns a
fresh identifier) and record the (user, full path, identifier) association. -/
def register_data_product (env : Env) (requestUser : String)
    (fullPath : AbsPath) (dp : DataProductObj) : Env × String :=
  let uri := "airavata-dp://" ++ toString env.nextUri
  ({ env with
      catalogSubmissions := env.catalogSubmissions ++ [dp]
    , userFiles := env.userFiles ++ [(requestUser, fullPath, uri)]
    , nextUri := env.nextUri + 1 }, uri)

/-- Model of _save_copy_of_data_product: duplicate the record for the new path, then
register the duplicate and stamp the minted identifier on it. -/
def save_copy_of_data_product (st : Settings) (env : Env) (h : Heap)
    (requestUser : String) (fullPath : AbsPath) (dp : DataProductObj) :
    Env × Heap × DataProductObj :=
  let (h2, c) := copy_data_product st h requestUser dp fullPath
  let (env2, uri) := register_data_product env requestUser fullPath c
  (env2, h2, { c with productUri := some uri })

/-- Model of _get_replica_filepath: the path component of the file URI of the first
replica in the gateway-data-store category, if any. -/
def get_replica_filepath (h : Heap) (dp : DataProductObj) : Option PyPath :=
  let reps := (h.readReplicas dp.replicaLocations).filter
    (fun r => decide (r.replicaLocationCategory = .GATEWAY_DATA_STORE))
  match reps with
  | [] => none
  | r :: _ => some ⟨true, r.filePath.path⟩

/-- is_input_file: locate the replica path, check its existence for the
requesting user, and compare the parent directory of its root-relative form
with the staging directory name ("tmp"); a record with no gateway replica
makes the Python code pass None where a path is expected, modelled as an
error. -/
def is_input_file (ds : Datastore) (h : Heap) (fs : FS) (requestUser : String)
    (dp : DataProductObj) : Except String Bool :=
  match get_replica_filepath h dp with
  | none => .error "TypeError"
  | some p =>
    if (ds.existsF fs requestUser p).1 then
      match ds.relPath requestUser p with
      | some rel => .ok (decide (rel.dropLast = [TMP_INPUT_FILE_UPLOAD_DIR]))
      | none => .error "SuspiciousFileOperation"
    else .ok false

/-- Model of _determine_content_type: the caller-supplied value when present, else the
extension-based guess; when the value so far is absent or the generic binary
type, try reading the first 1 KiB of the file as text (decodesAsText says
whether that read finishes without a UnicodeDecodeError; other read failures
are outside the model) and classify as plain text on success, keeping the
value so far otherwise. -/
def determine_content_type (guessed : Option String) (decodesAsText : Bool)
    (content_type : Option String) : Option String :=
  let result := content_type
  let result := match result with | none => guessed | some t => some t
  if result = none ∨ result = some "application/octet-stream" then
    if decodesAsText then some "text/plain" else result
  else result

/-- State observed by the delete pipeline: whether the replica file exists on
disk and whether the path association is still recorded. -/
structure DeleteState where
  fileExists : Bool
  assocExists : Bool
deriving DecidableEq, Repr

/-- Model of _Datastore.delete: raise ObjectDoesNotExist when the file is missing,
otherwise delete it; an injected failure models an OSError raised by the
storage delete call. -/
def datastore_delete (fsFails : Bool) (s : DeleteState) :
    Except String DeleteState :=
  if s.fileExists then
    if fsFails then .error "OSError" else .ok { s with fileExists := false }
  else .error "ObjectDoesNotExist"

/-- Model of _delete_data_product: remove the path association when present; an
injected failure models a database error. -/
def delete_data_product (catFails : Bool) (s : DeleteState) :
    Except String DeleteState :=
  if catFails then .error "DatabaseError"
  else .ok { s with assocExists := false }

/-- the message logged by delete on failure, naming the path and the record
identifier. -/
def delete_log_message (path uri : String) : String :=
  "Unable to delete file " ++ path ++ " for data product uri " ++ uri

/-- delete (module level): filesystem delete first, then catalog unregister;
on a failure of either step, log one message naming the path and the record
identifier and re-raise the failure unchanged.  Returns the outcome, the
final state and the log. -/
def delete_file (fsFails catFails : Bool) (path uri : String)
    (s : DeleteState) : Except String Unit × DeleteState × List String :=
  match datastore_delete fsFails s with
  | .error e => (.error e, s, [delete_log_message path uri])
  | .ok s1 =>
    match delete_data_product catFails s1 with
    | .error e => (.error e, s1, [delete_log_message path uri])
    | .ok s2 => (.ok (), s2, [])

/-! ### Helper lemmas -/

theorem goodPath_append {a b : List String} (ha : goodPath a = true)
    (hb : goodPath b = true) : goodPath (a ++ b) = true := by
  simp only [goodPath, List.all_append, Bool.and_eq_true] at *
  exact ⟨ha, hb⟩

theorem goodPath_dropLast {a : List String} (ha : goodPath a = true) :
    goodPath a.dropLast = true := by
  simp only [goodPath, List.all_eq_true] at *
  intro x hx
  exact ha x (List.dropLast_subset _ hx)

theorem normAux_good (acc : List String) (l : List String)
    (h : goodPath acc = true) : goodPath (normAux acc l) = true := by
  induction l generalizing acc with
  | nil => simpa [normAux] using h
  | cons s rest ih =>
    by_cases h1 : s = "" ∨ s = "."
    · simpa [normAux, h1] using ih acc h
    · by_cases h2 : s = ".."
      · simp only [normAux, h1, if_false, h2, if_true]
        exact ih _ (goodPath_dropLast h)
      · simp only [normAux, h1, if_false, h2, if_true]
        refine ih _ (goodPath_append h ?_)
        push_neg at h1
        simp [goodPath, goodSeg, h1.1, h1.2, h2]

theorem normSegs_good (l : List String) : goodPath (normSegs l) = true :=
  normAux_good [] l rfl

theorem normAux_of_good (acc : List String) (l : List String)
    (h : goodPath l = true) : normAux acc l = acc ++ l := by
  induction l generalizing acc with
  | nil => simp [normAux]
  | cons s rest ih =>
    simp only [goodPath, List.all_cons, Bool.and_eq_true, goodSeg,
      decide_eq_true_eq] at h
    obtain ⟨⟨h1, h2, h3⟩, hrest⟩ := h
    simp only [normAux, h1, h2, h3, or_self, if_false, if_true]
    rw [ih (acc ++ [s]) hrest]
    simp

theorem normSegs_of_good (l : List String) (h : goodPath l = true) :
    normSegs l = l := by
  simpa [normSegs] using normAux_of_good [] l h

theorem safeJoin_some {base : AbsPath} {p : PyPath} {a : AbsPath}
    (h : safeJoin base p = some a) :
    a = normSegs (joinSegs base p) ∧ base <+: a ∧ goodPath a = true := by
  by_cases hpre : base.isPrefixOf (normSegs (joinSegs base p)) = true
  · simp only [safeJoin, hpre, if_true, Option.some_inj] at h
    exact ⟨h.symm, h ▸ List.isPrefixOf_iff_prefix.mp hpre, h ▸ normSegs_good _⟩
  · simp [safeJoin, hpre] at h

theorem safeJoin_none {base : AbsPath} {p : PyPath}
    (h : ¬ base <+: normSegs (joinSegs base p)) :
    safeJoin base p = none := by
  have : base.isPrefixOf (normSegs (joinSegs base p)) ≠ true := by
    intro hc
    exact h (List.isPrefixOf_iff_prefix.mp hc)
  simp [safeJoin, this]

/-- Resolving an absolute path already inside the root (with clean segments)
succeeds and returns it unchanged. -/
theorem safeJoin_abs_inside {base a : AbsPath} (hg : goodPath a = true)
    (hp : base <+: a) : safeJoin base ⟨true, a⟩ = some a := by
  have hj : joinSegs base ⟨true, a⟩ = a := rfl
  simp [safeJoin, hj, normSegs_of_good a hg, List.isPrefixOf_iff_prefix.mpr hp]

theorem commonLen_append (start rest : List String) :
    commonLen (start ++ rest) start = start.length := by
  induction start with
  | nil => cases rest <;> simp [commonLen]
  | cons s ss ih => simp [commonLen, ih]

theorem relpathSegs_of_prefix {start target : List String}
    (h : start <+: target) : relpathSegs target start = target.drop start.length := by
  obtain ⟨rest, rfl⟩ := h
  simp [relpathSegs, commonLen_append]

theorem getAvailableAux_ok {root : AbsPath} {fs : FS} {dir : PyPath}
    {valid : String} {fuel n : Nat} {a : AbsPath}
    (h : getAvailableAux root fs dir valid fuel n = .ok a) :
    fs.existsAt a = false ∧ root <+: a ∧ goodPath a = true ∧
      ∃ k, a = normSegs (joinSegs root ⟨dir.absolute, dir.segs ++ [candSeg valid k]⟩) := by
  induction fuel generalizing n with
  | zero => simp [getAvailableAux] at h
  | succ fuel ih =>
    simp only [getAvailableAux] at h
    cases hj : safeJoin root ⟨dir.absolute, dir.segs ++ [candSeg valid n]⟩ with
    | none => rw [hj] at h; cases h
    | some b =>
      rw [hj] at h
      dsimp only at h
      by_cases hex : fs.existsAt b = true
      · rw [if_pos hex] at h
        exact ih h
      · rw [if_neg hex] at h
        cases h
        obtain ⟨hshape, hpre, hgood⟩ := safeJoin_some hj
        exact ⟨Bool.eq_false_iff.mpr hex, hpre, hgood, n, hshape⟩

theorem FS.lookup_insert_self (fs : FS) (p : AbsPath) (e : Entry) :
    (fs.insert p e).lookup p = some e := by
  simp [FS.insert, FS.lookup, List.lookup]

theorem FS.lookup_insert_ne (fs : FS) (p q : AbsPath) (e : Entry)
    (h : p ≠ q) : (fs.insert q e).lookup p = fs.lookup p := by
  have hb : (p == q) = false := beq_eq_false_iff_ne.mpr h
  simp [FS.insert, FS.lookup, List.lookup, hb]

theorem FS.existsAt_insert_mono (fs : FS) (p q : AbsPath) (e : Entry)
    (h : fs.existsAt p = true) : (fs.insert q e).existsAt p = true := by
  by_cases hpq : p = q
  · subst hpq
    simp [FS.existsAt, FS.lookup_insert_self]
  · rw [FS.existsAt, FS.lookup_insert_ne fs p q e hpq]
    exact h

theorem FS.existsAt_and_isFile (fs : FS) (a : AbsPath) :
    (fs.existsAt a && fs.isFile a) = fs.isFile a := by
  cases h : fs.lookup a with
  | none => simp [FS.existsAt, FS.isFile, h]
  | some e => cases e <;> simp [FS.existsAt, FS.isFile, h]

theorem FS.existsAt_and_isDir (fs : FS) (a : AbsPath) :
    (fs.existsAt a && fs.isDir a) = fs.isDir a := by
  cases h : fs.lookup a with
  | none => simp [FS.existsAt, FS.isDir, h]
  | some e => cases e <;> simp [FS.existsAt, FS.isDir, h]

theorem FS.existsAt_of_isDir (fs : FS) (a : AbsPath)
    (h : fs.isDir a = true) : fs.existsAt a = true := by
  rw [← FS.existsAt_and_isDir] at h
  exact (Bool.and_eq_true_iff.mp h).1

theorem FS.lookup_removeTree_of_prefix (fs : FS) (p q : AbsPath)
    (h : p <+: q) : (fs.removeTree p).lookup q = none := by
  induction fs with
  | nil => rfl
  | cons e rest ih =>
    rw [FS.removeTree, List.filter_cons]
    by_cases hk : (!(p.isPrefixOf e.1)) = true
    · rw [if_pos hk]
      have hne : q ≠ e.1 := by
        intro hc
        rw [Bool.not_eq_true', ← Bool.not_eq_true] at hk
        exact hk (List.isPrefixOf_iff_prefix.mpr (hc ▸ h))
      have hb : (q == e.1) = false := beq_eq_false_iff_ne.mpr hne
      rw [FS.lookup, List.lookup]
      simp only [hb]
      exact ih
    · rw [if_neg hk]
      exact ih

theorem FS.existsAt_mkdirAll_mono (fs : FS) (t : AbsPath) (p : AbsPath)
    (h : fs.existsAt p = true) : (fs.mkdirAll t).existsAt p = true := by
  rw [FS.mkdirAll]
  generalize List.range t.length = l
  induction l generalizing fs with
  | nil => exact h
  | cons i rest ih =>
    rw [List.foldl_cons]
    apply ih
    dsimp only
    by_cases hex : fs.existsAt (t.take (i + 1)) = true
    · rw [if_pos hex]; exact h
    · rw [if_neg hex]
      exact FS.existsAt_insert_mono fs p _ _ h

theorem FS.existsAt_mkdirAll_self (fs : FS) (t : AbsPath) (h : t ≠ []) :
    (fs.mkdirAll t).existsAt t = true := by
  obtain ⟨n, hn⟩ : ∃ n, t.length = n + 1 :=
    ⟨t.length - 1, (Nat.succ_pred_eq_of_pos (List.length_pos.mpr h)).symm⟩
  rw [FS.mkdirAll, hn, List.range_succ, List.foldl_append, List.foldl_cons,
    List.foldl_nil]
  have htake : t.take (n + 1) = t := by
    rw [← hn]; exact List.take_length t
  set f := List.foldl _ fs (List.range n) with hf
  dsimp only
  rw [htake]
  by_cases hex : f.existsAt t = true
  · rw [if_pos hex]; exact hex
  · rw [if_neg hex, FS.existsAt, FS.lookup_insert_self]
    rfl

theorem basenameAux_no_sep (acc : List Char) (l : List Char)
    (h : '/' ∉ acc) : '/' ∉ basenameAux acc l := by
  induction l generalizing acc with
  | nil => simpa [basenameAux] using h
  | cons c rest ih =>
    by_cases hc : c = '/'
    · simp only [basenameAux, hc, if_true]
      exact ih [] (by simp)
    · simp only [basenameAux, hc, if_false]
      refine ih (acc ++ [c]) ?_
      simp only [List.mem_append, List.mem_singleton]
      rintro (hin | rfl)
      · exact h hin
      · exact hc rfl

theorem basenameAux_of_no_sep (acc : List Char) (l : List Char)
    (h : '/' ∉ l) : basenameAux acc l = acc ++ l := by
  induction l generalizing acc with
  | nil => simp [basenameAux]
  | cons c rest ih =>
    have hc : c ≠ '/' := by
      intro hc
      exact h (by simp [hc])
    simp only [basenameAux, hc, if_false]
    rw [ih (acc ++ [c]) (by intro hin; exact h (by simp [hin]))]
    simp

theorem basename_idem (s : String) : basename (basename s) = basename s := by
  have h1 : '/' ∉ basenameAux [] s.toList :=
    basenameAux_no_sep [] s.toList (by simp)
  show String.mk (basenameAux [] (String.mk (basenameAux [] s.toList)).toList) =
    String.mk (basenameAux [] s.toList)
  rw [show (String.mk (basenameAux [] s.toList)).toList =
    basenameAux [] s.toList from rfl]
  rw [basenameAux_of_no_sep [] _ h1]
  simp

theorem basenameAux_append_sep (d : List Char) (s : List Char) (acc : List Char) :
    basenameAux acc (d ++ '/' :: s) = basenameAux [] s := by
  induction d generalizing acc with
  | nil => simp [basenameAux]
  | cons c rest ih =>
    by_cases hc : c = '/'
    · simp only [List.cons_append, basenameAux, hc, if_true]
      exact ih []
    · simp only [List.cons_append, basenameAux, hc, if_false]
      exact ih (acc ++ [c])

theorem basename_drop_dirs (d s : String) :
    basename (d ++ "/" ++ s) = basename s := by
  show String.mk (basenameAux [] (d ++ "/" ++ s).toList) = _
  have : (d ++ "/" ++ s).toList = d.toList ++ '/' :: s.toList := by
    show (d ++ "/" ++ s).data = d.data ++ '/' :: s.data
    rw [String.data_append, String.data_append]
    rw [show ("/" : String).data = ['/'] from rfl]
    simp
  rw [this, basenameAux_append_sep]
  rfl

/-! ### Claim C1 -/

/-- C1: resolving a user-supplied path against the storage root of a user
either fails with the invalid-path error exactly when the normalised
resolution of the path is not a descendant of that root (which covers ../
traversal and absolute-path injection), or returns that resolution: an
absolute path having the acting root as a prefix.  No path outside the root
is ever returned. -/
theorem C1_resolve_containment (ds : Datastore) (username : String)
    (p : PyPath) :
    (¬ ds.userRoot username <+:
        normSegs (joinSegs (ds.userRoot username) p) →
      ds.path username p = none) ∧
    (∀ a, ds.path username p = some a →
      a = normSegs (joinSegs (ds.userRoot username) p) ∧
        ds.userRoot username <+: a) :=
  ⟨fun h => safeJoin_none h,
   fun _ h => ⟨(safeJoin_some h).1, (safeJoin_some h).2.1⟩⟩

/-- C1 witness: a ../ traversal and an absolute-path injection are rejected
for a concrete root, and an in-root relative path resolves with the root as
prefix. -/
theorem C1_resolve_containment_witness :
    Datastore.path ⟨["data"]⟩ "alice" ⟨false, ["..", "bob", "secret"]⟩ =
      none ∧
    Datastore.path ⟨["data"]⟩ "alice" ⟨true, ["etc", "passwd"]⟩ = none ∧
    ["data", "alice"] <+: ["data", "alice", "docs", "f.txt"] :=
  ⟨(C1_resolve_containment ⟨["data"]⟩ "alice"
      ⟨false, ["..", "bob", "secret"]⟩).1 (by decide),
   (C1_resolve_containment ⟨["data"]⟩ "alice" ⟨true, ["etc", "passwd"]⟩).1
      (by decide),
   ((C1_resolve_containment ⟨["data"]⟩ "alice" ⟨false, ["docs", "f.txt"]⟩).2
      ["data", "alice", "docs", "f.txt"] (by decide)).2⟩

/-! ### Claim C3 -/

/-- C3 counterexample: with a caller-supplied generic binary type and a first
1 KiB that decodes as text, resolution returns plain text instead of the
caller value, so the caller-supplied value is not always used; and with a
guessed generic binary type and a failing decode, resolution returns the
generic binary type instead of leaving the type unset. -/
theorem C3_content_type_counterexample :
    determine_content_type none true (some "application/octet-stream") ≠
      some "application/octet-stream" ∧
    determine_content_type (some "application/octet-stream") false none ≠
      none := by
  constructor
  · intro h
    have : (some "text/plain" : Option String) =
        some "application/octet-stream" := h
    simp at this
  · intro h
    have : (some "application/octet-stream" : Option String) = none := h
    simp at this

/-- C3 amended: resolution starts from the caller-supplied value when
present, otherwise from the extension-based guess; whenever that starting
value is absent or the generic binary type, the 1 KiB text read is attempted,
the type becomes plain text on success, and on a decoding error the starting
value is kept — so it is left unset only when it was already absent. -/
theorem C3_content_type_resolution :
    (∀ g r c, c ≠ "application/octet-stream" →
      determine_content_type g r (some c) = some c) ∧
    (∀ g, determine_content_type g true (some "application/octet-stream") =
      some "text/plain" ∧
      determine_content_type g false (some "application/octet-stream") =
        some "application/octet-stream") ∧
    (∀ g r, g ≠ none → g ≠ some "application/octet-stream" →
      determine_content_type g r none = g) ∧
    (determine_content_type none true none = some "text/plain" ∧
      determine_content_type none false none = none ∧
      determine_content_type (some "application/octet-stream") true none =
        some "text/plain" ∧
      determine_content_type (some "application/octet-stream") false none =
        some "application/octet-stream") := by
  refine ⟨?_, ?_, ?_, by decide⟩
  · intro g r c hc
    simp [determine_content_type, hc]
  · intro g
    constructor <;> rfl
  · intro g r hg hoct
    cases g with
    | none => exact absurd rfl hg
    | some t =>
      have ht : t ≠ "application/octet-stream" := by
        intro hc
        exact hoct (by rw [hc])
      simp [determine_content_type, ht]

/-- C3 witness: a caller-supplied CSV type is used unchanged, and with no
caller value a CSV guess is used unchanged. -/
theorem C3_content_type_resolution_witness :
    determine_content_type none true (some "text/csv") = some "text/csv" ∧
    determine_content_type (some "text/csv") false none = some "text/csv" :=
  ⟨C3_content_type_resolution.1 none true "text/csv" (by decide),
   C3_content_type_resolution.2.2.1 (some "text/csv") false (by decide)
     (by decide)⟩

/-! ### Claim C4 -/

/-- C4 counterexample: from a state with the file present and the association
present, no combination of an injected filesystem failure and an injected
catalog failure leaves the reverse partial state (file intact, association
gone) behind: the "or vice versa" outcome of the claim is unreachable,
because the unregister step runs only after the filesystem delete succeeded. -/
theorem C4_no_reverse_partial_state :
    ([true, false].all fun fsF => [true, false].all fun catF =>
      !((delete_file fsF catF "p" "uri" ⟨true, true⟩).2.1.fileExists &&
        !(delete_file fsF catF "p" "uri" ⟨true, true⟩).2.1.assocExists)) =
      true := by
  decide

/-- C4 amended: delete performs the filesystem delete first and the catalog
unregister second; if either step raises, one message naming the path and the
record identifier is logged and the failure is re-raised unchanged; no
rollback of an already-performed filesystem delete is attempted, so a failing
unregister leaves the file gone and the association intact (the reverse
partial state cannot arise from this operation). -/
theorem C4_delete_order_log_reraise (fsFails catFails : Bool)
    (path uri : String) (s : DeleteState) :
    (fsFails = false → catFails = false → s.fileExists = true →
      delete_file fsFails catFails path uri s =
        (.ok (), ⟨false, false⟩, [])) ∧
    (fsFails = true → s.fileExists = true →
      delete_file fsFails catFails path uri s =
        (.error "OSError", s, [delete_log_message path uri])) ∧
    (fsFails = false → catFails = true → s.fileExists = true →
      delete_file fsFails catFails path uri s =
        (.error "DatabaseError", ⟨false, s.assocExists⟩,
          [delete_log_message path uri])) := by
  obtain ⟨fe, ae⟩ := s
  refine ⟨?_, ?_, ?_⟩ <;> intro h1 h2 <;> first
  | (intro h3
     subst h1; subst h2; subst h3
     simp [delete_file, datastore_delete, delete_data_product])
  | (subst h1; subst h2
     simp [delete_file, datastore_delete, delete_data_product])

/-- C4 witness: with the file and the association present and an injected
catalog failure after a successful filesystem delete, the failure propagates,
one message naming path and record identifier is logged, the file stays
deleted and the association stays present. -/
theorem C4_delete_order_log_reraise_witness :
    delete_file false true "some/path" "airavata-dp://42" ⟨true, true⟩ =
      (.error "DatabaseError", ⟨false, true⟩,
        [delete_log_message "some/path" "airavata-dp://42"]) :=
  (C4_delete_order_log_reraise false true "some/path" "airavata-dp://42"
    ⟨true, true⟩).2.2 rfl rfl rfl

/-! ### Claim C9 -/

/-- C9: with no explicit name, save derives the stored file name from only
the final path segment of the name of the uploaded file object: saving a
file whose name carries directory components behaves exactly like saving one
named by its basename alone, and the basename discards every directory
component, so directory parts embedded in the uploaded name can never change
the directory written into. -/
theorem C9_save_basename_only (ds : Datastore) (fs : FS) (fuel : Nat)
    (username : String) (path : PyPath) (content : List Nat) (s d : String) :
    ds.save fs fuel username path ⟨s, content⟩ none =
      ds.save fs fuel username path ⟨basename s, content⟩ none ∧
    basename (d ++ "/" ++ s) = basename s := by
  constructor
  · show (match getAvailableAux (ds.userRoot username) fs path
        (get_valid_name (basename s)) fuel 0 with
      | .error e => Except.error e
      | .ok a => Except.ok (fs.insert a (.file content), a)) =
      (match getAvailableAux (ds.userRoot username) fs path
        (get_valid_name (basename (basename s))) fuel 0 with
      | .error e => Except.error e
      | .ok a => Except.ok (fs.insert a (.file content), a))
    rw [basename_idem]
  · exact basename_drop_dirs d s

/-! ### Claim C6 -/

/-- C6: on a path the resolver rejects, the read-only queries exists and
dir_exists return false and log the rejection instead of raising; on a path
it accepts, they answer true exactly when the resolved target is an existing
regular file (respectively an existing directory), and the resolved target
lies inside the storage root of the user. -/
theorem C6_exists_queries_safe (ds : Datastore) (fs : FS) (username : String)
    (p : PyPath) :
    (ds.path username p = none →
      ds.existsF fs username p =
        (false, ["Invalid path for user " ++ username]) ∧
      ds.dirExistsF fs username p =
        (false, ["Invalid path for user " ++ username])) ∧
    (∀ a, ds.path username p = some a →
      (ds.existsF fs username p).1 = fs.isFile a ∧
      (ds.dirExistsF fs username p).1 = fs.isDir a ∧
      ds.userRoot username <+: a) := by
  constructor
  · intro h
    constructor <;> simp [Datastore.existsF, Datastore.dirExistsF, h]
  · intro a h
    refine ⟨?_, ?_, (safeJoin_some h).2.1⟩
    · simp [Datastore.existsF, h, FS.existsAt_and_isFile]
    · simp [Datastore.dirExistsF, h, FS.existsAt_and_isDir]

/-- C6 witness: on a concrete filesystem, a traversal path makes both queries
answer false with a logged warning, and a valid path answers according to the
entry kind at the resolved target. -/
theorem C6_exists_queries_safe_witness :
    Datastore.existsF ⟨["data"]⟩
      [(["data", "alice", "docs", "f.txt"], .file [1]),
       (["data", "alice", "docs"], .dir)] "alice" ⟨false, ["..", ".."]⟩ =
      (false, ["Invalid path for user " ++ "alice"]) ∧
    (Datastore.existsF ⟨["data"]⟩
      [(["data", "alice", "docs", "f.txt"], .file [1]),
       (["data", "alice", "docs"], .dir)] "alice"
      ⟨false, ["docs", "f.txt"]⟩).1 =
      FS.isFile
        [(["data", "alice", "docs", "f.txt"], .file [1]),
         (["data", "alice", "docs"], .dir)]
        ["data", "alice", "docs", "f.txt"] ∧
    (Datastore.dirExistsF ⟨["data"]⟩
      [(["data", "alice", "docs", "f.txt"], .file [1]),
       (["data", "alice", "docs"], .dir)] "alice" ⟨false, ["docs"]⟩).1 =
      FS.isDir
        [(["data", "alice", "docs", "f.txt"], .file [1]),
         (["data", "alice", "docs"], .dir)]
        ["data", "alice", "docs"] :=
  ⟨((C6_exists_queries_safe ⟨["data"]⟩
      [(["data", "alice", "docs", "f.txt"], .file [1]),
       (["data", "alice", "docs"], .dir)] "alice" ⟨false, ["..", ".."]⟩).1
      (by decide)).1,
   ((C6_exists_queries_safe ⟨["data"]⟩
      [(["data", "alice", "docs", "f.txt"], .file [1]),
       (["data", "alice", "docs"], .dir)] "alice"
      ⟨false, ["docs", "f.txt"]⟩).2 ["data", "alice", "docs", "f.txt"]
      (by decide)).1,
   (((C6_exists_queries_safe ⟨["data"]⟩
      [(["data", "alice", "docs", "f.txt"], .file [1]),
       (["data", "alice", "docs"], .dir)] "alice" ⟨false, ["docs"]⟩).2
      ["data", "alice", "docs"] (by decide)).2).1⟩

/-! ### Claim C7 -/

/-- C7: whenever save succeeds and returns an absolute path, opening that
path for the same user returns content byte-identical to the saved stream. -/
theorem C7_save_open_roundtrip (ds : Datastore) (fs : FS) (fuel : Nat)
    (username : String) (path : PyPath) (file : PyFile) (name : Option String)
    (fs2 : FS) (a : AbsPath)
    (h : ds.save fs fuel username path file name = .ok (fs2, a)) :
    ds.openF fs2 username ⟨true, a⟩ = .ok file.content := by
  simp only [Datastore.save] at h
  split at h
  · cases h
  · rename_i b hg
    injection h with hpair
    have hfs2 : fs2 = fs.insert b (.file file.content) :=
      (congrArg Prod.fst hpair).symm
    have hab : a = b := (congrArg Prod.snd hpair).symm
    subst hfs2
    subst hab
    obtain ⟨hex, hpre, hgood, -⟩ := getAvailableAux_ok hg
    have hpath : ds.path username ⟨true, a⟩ = some a :=
      safeJoin_abs_inside hgood hpre
    have hlook : (fs.insert a (Entry.file file.content)).lookup a =
        some (.file file.content) := FS.lookup_insert_self fs a _
    have hEx : (Datastore.existsF ds (fs.insert a (.file file.content))
        username ⟨true, a⟩).1 = true := by
      simp [Datastore.existsF, hpath, FS.existsAt, FS.isFile, hlook]
    simp [Datastore.openF, hEx, hpath, hlook]

/-- C7 witness: saving the bytes 1, 2, 3 as report.txt under docs for alice
and opening the returned path yields exactly those bytes. -/
theorem C7_save_open_roundtrip_witness :
    Datastore.openF ⟨["data"]⟩
      [(["data", "alice", "docs", "report.txt"], .file [1, 2, 3])] "alice"
      ⟨true, ["data", "alice", "docs", "report.txt"]⟩ = .ok [1, 2, 3] :=
  C7_save_open_roundtrip ⟨["data"]⟩ [] 1 "alice" ⟨false, ["docs"]⟩
    ⟨"report.txt", [1, 2, 3]⟩ none
    [(["data", "alice", "docs", "report.txt"], .file [1, 2, 3])]
    ["data", "alice", "docs", "report.txt"] rfl

/-! ### Claim C2 -/

/-- C2 counterexample: a record owned by bob whose replica file sits in the
staging directory of bob and exists there.  The claim demands true (the path
exists for the owner of the record and its parent is the staging name), but
for a request by alice the code checks existence under the storage root of
alice and answers false. -/
theorem C2_owner_check_counterexample :
    is_input_file ⟨["data"]⟩
      ⟨[], [[⟨"rid", "f gateway data store copy", .GATEWAY_DATA_STORE,
        .TRANSIENT, ⟨"host", ["data", "bob", "tmp", "f"]⟩⟩]]⟩
      [(["data", "bob", "tmp", "f"], .file [7])] "alice"
      ⟨some "uri-1", "gw", "bob", "f", none, 0⟩ = .ok false ∧
    (Datastore.existsF ⟨["data"]⟩ [(["data", "bob", "tmp", "f"], .file [7])]
      "bob" ⟨true, ["data", "bob", "tmp", "f"]⟩).1 = true ∧
    ((Datastore.relPath ⟨["data"]⟩ "bob"
      ⟨true, ["data", "bob", "tmp", "f"]⟩).getD []).dropLast =
      [TMP_INPUT_FILE_UPLOAD_DIR] :=
  ⟨rfl, rfl, rfl⟩

/-- C2 amended: is_input_file answers true exactly when the located replica
path exists as a file for the requesting user and the parent directory of its
root-relative form equals the staging-area name; the existence check runs
against the requesting user, not against the owner recorded on the record. -/
theorem C2_staging_check_requesting_user (ds : Datastore) (h : Heap) (fs : FS)
    (requestUser : String) (dp : DataProductObj) (p : PyPath)
    (hrep : get_replica_filepath h dp = some p)
    (hroot : goodPath (ds.userRoot requestUser) = true) :
    is_input_file ds h fs requestUser dp = .ok
      ((ds.existsF fs requestUser p).1 &&
        decide (((ds.relPath requestUser p).getD []).dropLast =
          [TMP_INPUT_FILE_UPLOAD_DIR])) := by
  have hrootpath : ds.path requestUser ⟨false, []⟩ =
      some (ds.userRoot requestUser) := by
    have hj : joinSegs (ds.userRoot requestUser) ⟨false, []⟩ =
        ds.userRoot requestUser := by simp [joinSegs]
    simp [Datastore.path, safeJoin, hj, normSegs_of_good _ hroot,
      List.isPrefixOf_iff_prefix.mpr (List.prefix_refl _)]
  simp only [is_input_file, hrep]
  by_cases hex : (ds.existsF fs requestUser p).1 = true
  · obtain ⟨full, hp⟩ : ∃ full, ds.path requestUser p = some full := by
      rcases hp : ds.path requestUser p with _ | full
      · rw [Datastore.existsF, hp] at hex
        simp at hex
      · exact ⟨full, rfl⟩
    have hrel : ds.relPath requestUser p =
        some (relpathSegs full (ds.userRoot requestUser)) := by
      simp [Datastore.relPath, hp, hrootpath]
    simp [hex, hrel]
  · rw [if_neg hex]
    rw [Bool.not_eq_true] at hex
    simp [hex]

/-- C2 witness: a file in the staging directory of the requesting user makes
is_input_file answer true. -/
theorem C2_staging_check_requesting_user_witness :
    is_input_file ⟨["data"]⟩
      ⟨[], [[⟨"rid", "f gateway data store copy", .GATEWAY_DATA_STORE,
        .TRANSIENT, ⟨"host", ["data", "alice", "tmp", "f"]⟩⟩]]⟩
      [(["data", "alice", "tmp", "f"], .file [7])] "alice"
      ⟨some "uri-2", "gw", "alice", "f", none, 0⟩ = .ok true :=
  Eq.trans
    (C2_staging_check_requesting_user ⟨["data"]⟩
      ⟨[], [[⟨"rid", "f gateway data store copy", .GATEWAY_DATA_STORE,
        .TRANSIENT, ⟨"host", ["data", "alice", "tmp", "f"]⟩⟩]]⟩
      [(["data", "alice", "tmp", "f"], .file [7])] "alice"
      ⟨some "uri-2", "gw", "alice", "f", none, 0⟩
      ⟨true, ["data", "alice", "tmp", "f"]⟩ rfl (by decide))
    rfl

/-! ### Claim C10 -/

/-- C10: for a user whose storage root exists as a directory, delete_dir on
the empty relative path resolves that path to the root itself, passes the
directory-existence guard (which does not distinguish the root from one of
its subdirectories), and removes every entry under and including the root. -/
theorem C10_delete_dir_empty_path_root (ds : Datastore) (fs : FS)
    (username : String)
    (hroot : goodPath (ds.userRoot username) = true)
    (hdir : fs.isDir (ds.userRoot username) = true) :
    ds.path username ⟨false, []⟩ = some (ds.userRoot username) ∧
    ∃ fs2, ds.deleteDir fs username ⟨false, []⟩ = .ok fs2 ∧
      ∀ q, ds.userRoot username <+: q → fs2.lookup q = none := by
  have hj : joinSegs (ds.userRoot username) ⟨false, []⟩ =
      ds.userRoot username := by simp [joinSegs]
  have hpath : ds.path username ⟨false, []⟩ =
      some (ds.userRoot username) := by
    simp [Datastore.path, safeJoin, hj, normSegs_of_good _ hroot,
      List.isPrefixOf_iff_prefix.mpr (List.prefix_refl _)]
  refine ⟨hpath, fs.removeTree (ds.userRoot username), ?_, ?_⟩
  · have hde : (ds.dirExistsF fs username ⟨false, []⟩).1 = true := by
      simp [Datastore.dirExistsF, hpath, hdir, FS.existsAt_of_isDir fs _ hdir]
    simp [Datastore.deleteDir, hde, hpath]
  · intro q hq
    exact FS.lookup_removeTree_of_prefix fs _ q hq

/-- C10 witness: with a concrete filesystem holding the root of alice, a
staged file beneath it, and a file of bob, delete_dir on the empty path
succeeds for alice and the root of alice and the staged file are both gone. -/
theorem C10_delete_dir_empty_path_root_witness :
    Datastore.path ⟨["data"]⟩ "alice" ⟨false, []⟩ =
      some ["data", "alice"] ∧
    ∃ fs2, Datastore.deleteDir ⟨["data"]⟩
      [(["data", "alice"], .dir), (["data", "alice", "tmp", "f"], .file [0]),
       (["data", "bob", "x"], .file [1])] "alice" ⟨false, []⟩ = .ok fs2 ∧
      ∀ q, ["data", "alice"] <+: q → fs2.lookup q = none :=
  C10_delete_dir_empty_path_root ⟨["data"]⟩
    [(["data", "alice"], .dir), (["data", "alice", "tmp", "f"], .file [0]),
     (["data", "bob", "x"], .file [1])] "alice" (by decide) (by decide)

/-! ### Claim C5 -/

/-- C5 counterexample: the duplicate produced by _copy_data_product carries
the same metadata-dict reference as the original (copy.copy is shallow), and
writing a key through that shared dict changes what the original record
reads — so mutating the duplicate does affect the original, against the
structural-independence part of the claim. -/
theorem C5_shared_metadata_counterexample :
    (copy_data_product ⟨"gw", "rid", "host"⟩
      ⟨[[("mime-type", "text/csv")]],
        [[⟨"rid", "f.txt gateway data store copy", .GATEWAY_DATA_STORE,
          .TRANSIENT, ⟨"host", ["data", "bob", "f.txt"]⟩⟩]]⟩
      "alice" ⟨some "uri-0", "gw", "bob", "f.txt", some 0, 0⟩
      ["data", "alice", "tmp", "f.txt"]).2.productMetadata = some 0 ∧
    (⟨some "uri-0", "gw", "bob", "f.txt", some 0, 0⟩ :
      DataProductObj).productMetadata = some 0 ∧
    Heap.readDict
      (Heap.writeDictKey
        (copy_data_product ⟨"gw", "rid", "host"⟩
          ⟨[[("mime-type", "text/csv")]],
            [[⟨"rid", "f.txt gateway data store copy", .GATEWAY_DATA_STORE,
              .TRANSIENT, ⟨"host", ["data", "bob", "f.txt"]⟩⟩]]⟩
          "alice" ⟨some "uri-0", "gw", "bob", "f.txt", some 0, 0⟩
          ["data", "alice", "tmp", "f.txt"]).1
        0 "mime-type" "application/json") 0 =
      [("mime-type", "application/json")] ∧
    Heap.readDict
      (copy_data_product ⟨"gw", "rid", "host"⟩
        ⟨[[("mime-type", "text/csv")]],
          [[⟨"rid", "f.txt gateway data store copy", .GATEWAY_DATA_STORE,
            .TRANSIENT, ⟨"host", ["data", "bob", "f.txt"]⟩⟩]]⟩
        "alice" ⟨some "uri-0", "gw", "bob", "f.txt", some 0, 0⟩
        ["data", "alice", "tmp", "f.txt"]).1 0 =
      [("mime-type", "text/csv")] :=
  ⟨rfl, rfl, rfl, rfl⟩

/-- C5 amended: the duplicate has its external identifier cleared and then
stamped with the freshly minted one, its owner rewritten to the requesting
user, and exactly one ReplicaLocation in a freshly allocated replica list
pointing at the new full path (the replica list of the original is
untouched); it is registered as a new catalog submission plus a new PathIndex
association.  The copy is shallow, however: the metadata-dict reference stays
shared between original and duplicate, so mutation through the duplicate is
visible through the original. -/
theorem C5_duplicate_fresh_replica (st : Settings) (env : Env) (h : Heap)
    (requestUser : String) (fullPath : AbsPath) (dp : DataProductObj)
    (env2 : Env) (h2 : Heap) (c : DataProductObj)
    (href : dp.replicaLocations < h.replicaLists.length)
    (heq : save_copy_of_data_product st env h requestUser fullPath dp =
      (env2, h2, c)) :
    c.ownerName = requestUser ∧
    c.productUri = some ("airavata-dp://" ++ toString env.nextUri) ∧
    h2.readReplicas c.replicaLocations =
      [create_replica_location st fullPath dp.productName] ∧
    c.replicaLocations ≠ dp.replicaLocations ∧
    h2.readReplicas dp.replicaLocations = h.readReplicas dp.replicaLocations ∧
    c.productMetadata = dp.productMetadata ∧
    env2.catalogSubmissions =
      env.catalogSubmissions ++ [{ c with productUri := none }] ∧
    env2.userFiles = env.userFiles ++
      [(requestUser, fullPath, "airavata-dp://" ++ toString env.nextUri)] := by
  simp only [save_copy_of_data_product, copy_data_product,
    register_data_product, pyCopy] at heq
  injection heq with he1 hrest
  injection hrest with he2 he3
  subst he1
  subst he2
  subst he3
  refine ⟨rfl, rfl, ?_, ?_, ?_, rfl, rfl, rfl⟩
  · simp [Heap.readReplicas]
  · exact fun hc => absurd (hc.symm ▸ href) (lt_irrefl _)
  · simp [Heap.readReplicas, List.getD, List.getElem?_append_left href]

/-- C5 witness: duplicating a concrete one-replica record for alice allocates
replica list 1 in the heap, holding exactly the replica location for the new
path. -/
theorem C5_duplicate_fresh_replica_witness :
    Heap.readReplicas
      ⟨[[("mime-type", "text/csv")]],
        [[⟨"rid", "f.txt gateway data store copy", .GATEWAY_DATA_STORE,
          .TRANSIENT, ⟨"host", ["data", "bob", "f.txt"]⟩⟩],
         [⟨"rid", "f.txt gateway data store copy", .GATEWAY_DATA_STORE,
          .TRANSIENT, ⟨"host", ["data", "alice", "tmp", "f.txt"]⟩⟩]]⟩ 1 =
      [create_replica_location ⟨"gw", "rid", "host"⟩
        ["data", "alice", "tmp", "f.txt"] "f.txt"] :=
  (C5_duplicate_fresh_replica ⟨"gw", "rid", "host"⟩ ⟨[], [], 0⟩
    ⟨[[("mime-type", "text/csv")]],
      [[⟨"rid", "f.txt gateway data store copy", .GATEWAY_DATA_STORE,
        .TRANSIENT, ⟨"host", ["data", "bob", "f.txt"]⟩⟩]]⟩
    "alice" ["data", "alice", "tmp", "f.txt"]
    ⟨some "uri-0", "gw", "bob", "f.txt", some 0, 0⟩
    ⟨[⟨none, "gw", "alice", "f.txt", some 0, 1⟩],
      [("alice", ["data", "alice", "tmp", "f.txt"], "airavata-dp://0")], 1⟩
    ⟨[[("mime-type", "text/csv")]],
      [[⟨"rid", "f.txt gateway data store copy", .GATEWAY_DATA_STORE,
        .TRANSIENT, ⟨"host", ["data", "bob", "f.txt"]⟩⟩],
       [⟨"rid", "f.txt gateway data store copy", .GATEWAY_DATA_STORE,
        .TRANSIENT, ⟨"host", ["data", "alice", "tmp", "f.txt"]⟩⟩]]⟩
    ⟨some "airavata-dp://0", "gw", "alice", "f.txt", some 0, 1⟩
    (by decide) rfl).2.2.1

/-! ### Claim C8 -/

theorem existsAt_of_makedirs_ok {ds : Datastore} {fs fs1 : FS}
    {username : String} {p : PyPath}
    (h : ds.makedirs fs username p = .ok fs1) (q : AbsPath)
    (hq : fs.existsAt q = true) : fs1.existsAt q = true := by
  rw [Datastore.makedirs] at h
  cases hp : ds.path username p with
  | none =>
    rw [hp] at h
    exact Except.noConfusion h
  | some full =>
    rw [hp] at h
    dsimp only at h
    injection h with h1
    rw [← h1]
    exact FS.existsAt_mkdirAll_mono fs full q hq

theorem existsAt_of_mkstep_ok {ds : Datastore} {fs fs1 : FS}
    {username : String} {p : PyPath} {c : Bool}
    (h : (if c = true then Except.ok fs else ds.makedirs fs username p) =
      .ok fs1) (q : AbsPath) (hq : fs.existsAt q = true) :
    fs1.existsAt q = true := by
  by_cases hc : c = true
  · rw [if_pos hc] at h
    injection h with h1
    rw [← h1]
    exact hq
  · rw [if_neg hc] at h
    exact existsAt_of_makedirs_ok h q hq

theorem getExperimentDir_ok_none {ds : Datastore} {fs : FS} {fuel : Nat}
    {username project experiment : String} {fs2 : FS} {d : AbsPath}
    (h : ds.getExperimentDir fs fuel username (some project)
      (some experiment) none = .ok (fs2, d)) :
    fs.existsAt d = false ∧ fs2.existsAt d = true := by
  simp only [Datastore.getExperimentDir] at h
  split at h
  · exact Except.noConfusion h
  · rename_i pex hpex
    split at h
    · exact Except.noConfusion h
    · rename_i fs1 hfs1
      split at h
      · exact Except.noConfusion h
      · rename_i expDir hexp
        split at h
        · exact Except.noConfusion h
        · rename_i eex heex
          split at h
          · exact Except.noConfusion h
          · rename_i fs2x hfs2x
            injection h with hpr
            have hA : fs2x = fs2 := congrArg Prod.fst hpr
            have hB : expDir = d := congrArg Prod.snd hpr
            subst hA
            subst hB
            obtain ⟨hfree, hpre, hgood, -⟩ := getAvailableAux_ok hexp
            have hroot_ne : ds.userRoot username ≠ [] := by
              simp [Datastore.userRoot]
            have hd_ne : expDir ≠ [] := by
              intro hc
              rw [hc] at hpre
              exact hroot_ne (List.prefix_nil.mp hpre)
            have hsj : safeJoin (ds.userRoot username) ⟨true, expDir⟩ =
                some expDir := safeJoin_abs_inside hgood hpre
            have heexval : eex = false := by
              rw [storageExistsE, hsj] at heex
              injection heex with h1
              rw [← h1]
              exact hfree
            refine ⟨?_, ?_⟩
            · by_contra hcon
              rw [Bool.not_eq_false] at hcon
              have := existsAt_of_mkstep_ok hfs1 expDir hcon
              rw [this] at hfree
              exact Bool.noConfusion hfree
            · subst heexval
              rw [if_neg (by simp)] at hfs2x
              rw [Datastore.makedirs] at hfs2x
              have hpath : ds.path username ⟨true, expDir⟩ = some expDir := hsj
              rw [hpath] at hfs2x
              dsimp only at hfs2x
              injection hfs2x with h1
              rw [← h1]
              exact FS.existsAt_mkdirAll_self fs1 expDir hd_ne

/-- C8: two calls to get_experiment_dir with the same project and experiment
names and no explicit path return two distinct directories: the first call
creates its directory, and the second call allocates a name that is still
free after the first call, so it lands on a disambiguated sibling. -/
theorem C8_experiment_dir_distinct (ds : Datastore) (fs : FS)
    (fuel1 fuel2 : Nat) (username project experiment : String)
    (fs1 fs2 : FS) (d1 d2 : AbsPath)
    (h1 : ds.getExperimentDir fs fuel1 username (some project)
      (some experiment) none = .ok (fs1, d1))
    (h2 : ds.getExperimentDir fs1 fuel2 username (some project)
      (some experiment) none = .ok (fs2, d2)) :
    d1 ≠ d2 ∧ fs1.existsAt d1 = true ∧ fs1.existsAt d2 = false := by
  obtain ⟨-, he1⟩ := getExperimentDir_ok_none h1
  obtain ⟨hf2, -⟩ := getExperimentDir_ok_none h2
  refine ⟨?_, he1, hf2⟩
  intro hc
  rw [hc] at he1
  rw [he1] at hf2
  exact Bool.noConfusion hf2

/-- C8 witness: for alice with project proj1 and experiment exp1, the first
call returns proj1/exp1 and the second call returns the disambiguated sibling
proj1/exp1_1, distinct from the first. -/
theorem C8_experiment_dir_distinct_witness :
    (["data", "alice", "proj1", "exp1"] : AbsPath) ≠
      ["data", "alice", "proj1", "exp1_1"] ∧
    FS.existsAt
      [(["data", "alice", "proj1", "exp1"], .dir),
       (["data", "alice", "proj1"], .dir), (["data"], .dir),
       (["data", "alice"], .dir)] ["data", "alice", "proj1", "exp1"] = true ∧
    FS.existsAt
      [(["data", "alice", "proj1", "exp1"], .dir),
       (["data", "alice", "proj1"], .dir), (["data"], .dir),
       (["data", "alice"], .dir)] ["data", "alice", "proj1", "exp1_1"] =
      false :=
  C8_experiment_dir_distinct ⟨["data"]⟩
    [(["data"], .dir), (["data", "alice"], .dir)] 4 4 "alice" "proj1" "exp1"
    [(["data", "alice", "proj1", "exp1"], .dir),
     (["data", "alice", "proj1"], .dir), (["data"], .dir),
     (["data", "alice"], .dir)]
    [(["data", "alice", "proj1", "exp1_1"], .dir),
     (["data", "alice", "proj1", "exp1"], .dir),
     (["data", "alice", "proj1"], .dir), (["data"], .dir),
     (["data", "alice"], .dir)]
    ["data", "alice", "proj1", "exp1"] ["data", "alice", "proj1", "exp1_1"]
    rfl rfl

end UserStorage
